import Mathlib

/-!
Verification development for the `scale_s3_benchmark` repository.

Shallow embedding of the Go sources:
- `config/config.go`        → `Config`, `loadConfig`
- `monitor/monitor.go`      → `Stats`, `UpdateStats`
- `s3upload/upload.go`      → `uploadFileWithRetry`, `selectedClient`
- `s3upload/s3_client.go`   → `initializeS3Clients`
- `main.go`                 → `mainExitCode`, `batchSizes`, `buildFilePaths`
- `filegen/replication.go`  → `replicateFilesResult`
- `benchmark/benchmark.go`  → `PerformanceMetrics`, `recordOp`, `performOperation`

Machine integers of the Go code are modelled as `Nat`; the only machine
counter whose overflow could matter is the `uint64` endpoint counter, which
would need `2^64` upload attempts to wrap, so it is modelled as `Nat`.
File paths are modelled as lists of path components (Go's `filepath.Join` /
`filepath.Base` on clean slash-separated paths).
-/

namespace ScaleS3

/-- Configuration structure (`config/config.go`, `Config`).  Only the fields
the verified claims touch are carried; integer fields are `Nat`. -/
structure Config where
  bucketName : String
  s3Folder : String
  maxFilesPerFolder : Nat
  totalFiles : Nat
  maxRetries : Nat
  endpointURLs : List String
  maxConcurrentReplicas : Nat
  maxLocalFiles : Nat
  maxConcurrentUploads : Nat
  maxConcurrentSubfolders : Nat
  pauseDurationSeconds : Nat
  maxBenchmarkThreads : Nat
  benchmarkDurationSeconds : Nat
deriving DecidableEq

/-- `config.LoadConfig`: JSON decoding is abstracted as an `Option Config`
(`none` = open/read/unmarshal error); the explicit validation in the source is
the `MaxConcurrentReplicas <= 0` check (for `Nat`, `= 0`). -/
def loadConfig (parsed : Option Config) : Option Config :=
  match parsed with
  | none => none
  | some cfg => if cfg.maxConcurrentReplicas = 0 then none else some cfg

/-- Global statistics (`monitor/monitor.go`, `Stats`).  `StartTime` is wall
clock and plays no role in the claims. -/
structure Stats where
  totalUploads : Nat
  successes : Nat
  failures : Nat
deriving DecidableEq

/-- `monitor.UpdateStats`: one call increments `TotalUploads` and exactly one
of `Successes` / `Failures`. -/
def UpdateStats (success : Bool) (s : Stats) : Stats :=
  { totalUploads := s.totalUploads + 1
    successes := if success then s.successes + 1 else s.successes
    failures := if success then s.failures else s.failures + 1 }

/-- Sequence of `monitor.UpdateStats` calls applied in order. -/
def applyStatsCalls (calls : List Bool) (s : Stats) : Stats :=
  calls.foldl (fun st c => UpdateStats c st) s

/-- Go `filepath.Base` on a clean slash-separated path, with the path given
as its list of components: the last component. -/
def filepathBase (components : List String) : String :=
  components.getLastD ""

/-- The S3 destination key computed in `UploadFileWithRetry`
(`s3upload/upload.go`): `filepath.Join(u.Config.S3Folder, subfolderName,
filepath.Base(filePath))`, i.e. the three components joined by `/`. -/
def s3KeyFor (s3Folder subfolderName : String) (filePath : List String) : String :=
  s3Folder ++ "/" ++ subfolderName ++ "/" ++ filepathBase filePath

/-- The parent-directory component of a local path given as components. -/
def localParentOf (components : List String) : String :=
  components.dropLast.getLastD ""

/-- The destination key as the spec's words describe it:
`{s3Folder}/{subfolderName}/{localParentFolder}/{fileName}`.  This definition
follows the SPEC, not the source; it exists only to be compared with
`s3KeyFor`. -/
def specDestinationKey (s3Folder subfolderName localParentFolder fileName : String) : String :=
  s3Folder ++ "/" ++ subfolderName ++ "/" ++ localParentFolder ++ "/" ++ fileName

/-- Observable outcome of one `UploadFileWithRetry` call:
how many attempts ran, the backoff sleeps (in seconds, in order), whether an
upload succeeded (`false` = the function returns an error), which keys were
appended to `UploadedS3Files`, and the `monitor.UpdateStats` calls made. -/
structure RetryResult where
  attempts : Nat
  sleeps : List Nat
  success : Bool
  registryDelta : List String
  statsCalls : List Bool
deriving DecidableEq

/-- The retry loop of `UploadFileWithRetry` (`s3upload/upload.go`):
`for attempt := 1; attempt <= maxRetries; attempt++`.  `attemptOk n` is
whether the `uploadFile` call of attempt `n` (1-indexed) returns nil.
`fuel` is the number of loop iterations still allowed, maintained as
`maxRetries - attempt + 1`; `fuel = 0` is the loop exiting by its condition
(reachable only when `maxRetries = 0`), which falls through to the trailing
`return fmt.Errorf(...)` — an error return with NO `UpdateStats` call.
On success: `UpdateStats(true)` and the key is appended to the registry
(the cosmetic `SuccessCount` progress counter is not modelled).
On a failed attempt with `attempt < maxRetries`: sleep `2^attempt` seconds.
On the final failed attempt: `UpdateStats(false)` and an error return. -/
def retryAux (attemptOk : Nat → Bool) (s3Key : String) (maxRetries : Nat) :
    Nat → Nat → RetryResult
  | _, 0 => { attempts := 0, sleeps := [], success := false, registryDelta := [], statsCalls := [] }
  | attempt, fuel + 1 =>
    if attemptOk attempt then
      { attempts := 1, sleeps := [], success := true
        registryDelta := [s3Key], statsCalls := [true] }
    else if attempt < maxRetries then
      let rest := retryAux attemptOk s3Key maxRetries (attempt + 1) fuel
      { attempts := rest.attempts + 1, sleeps := 2 ^ attempt :: rest.sleeps
        success := rest.success, registryDelta := rest.registryDelta
        statsCalls := rest.statsCalls }
    else
      { attempts := 1, sleeps := [], success := false
        registryDelta := [], statsCalls := [false] }

/-- `UploadFileWithRetry(filePath, subfolderName)`: computes the destination
key, then runs the retry loop starting at attempt 1. -/
def uploadFileWithRetry (attemptOk : Nat → Bool) (s3Folder subfolderName : String)
    (filePath : List String) (maxRetries : Nat) : RetryResult :=
  retryAux attemptOk (s3KeyFor s3Folder subfolderName filePath) maxRetries 1 maxRetries

/-- Shape of the retry loop's observable effects whenever the loop body runs at
least once (`fuel = maxRetries - attempt + 1 ≥ 1`): exactly one
`UpdateStats` call, matching the outcome, and the key is appended exactly on
success. -/
theorem retryAux_shape (ok : Nat → Bool) (k : String) (N : Nat) :
    ∀ fuel a, 1 ≤ fuel → a + fuel = N + 1 →
      (retryAux ok k N a fuel).statsCalls = [(retryAux ok k N a fuel).success] ∧
      (retryAux ok k N a fuel).registryDelta =
        (if (retryAux ok k N a fuel).success then [k] else []) := by
  intro fuel
  induction fuel with
  | zero => intro a h1 _; exact absurd h1 (by omega)
  | succ f ih =>
    intro a _ h2
    by_cases hok : ok a = true
    · simp [retryAux, hok]
    · by_cases hlt : a < N
      · have hf1 : 1 ≤ f := by omega
        have hrec := ih (a + 1) hf1 (by omega)
        simpa [retryAux, hok, hlt] using hrec
      · simp [retryAux, hok, hlt]

/-- When every attempt fails, the retry loop started at attempt `a` with the
correct fuel runs all remaining attempts, sleeping `2^k` seconds after each
attempt `k` except the last, and ends in one recorded permanent failure. -/
theorem retryAux_all_fail (ok : Nat → Bool) (k : String) (N : Nat)
    (hfail : ∀ n, ok n = false) :
    ∀ fuel a, 1 ≤ fuel → a + fuel = N + 1 →
      retryAux ok k N a fuel =
        { attempts := fuel
          sleeps := (List.range (fuel - 1)).map (fun i => 2 ^ (a + i))
          success := false, registryDelta := [], statsCalls := [false] } := by
  intro fuel
  induction fuel with
  | zero => intro a h1 _; exact absurd h1 (by omega)
  | succ f ih =>
    intro a _ h2
    by_cases hf0 : f = 0
    · subst hf0
      have hlt : ¬ a < N := by omega
      simp [retryAux, hfail a, hlt]
    · have hf1 : 1 ≤ f := by omega
      have hlt : a < N := by omega
      have hrec := ih (a + 1) hf1 (by omega)
      simp only [retryAux, hfail a, Bool.false_eq_true, if_false, hlt, if_true, hrec,
        RetryResult.mk.injEq]
      refine ⟨by trivial, ?_, by trivial, by trivial, by trivial⟩
      obtain ⟨m, rfl⟩ : ∃ m, f = m + 1 := ⟨f - 1, by omega⟩
      have hfun : ((fun i => 2 ^ (a + i)) ∘ Nat.succ) = fun i => 2 ^ (a + 1 + i) := by
        funext i
        simp only [Function.comp]
        congr 1
        omega
      simp only [Nat.add_sub_cancel]
      rw [List.range_succ_eq_map, List.map_cons, List.map_map, hfun]
      simp

/-- Geometric sum of the backoff sleeps: `2^1 + 2^2 + … + 2^m = 2^(m+1) - 2`. -/
theorem backoff_sum (m : Nat) :
    ((List.range m).map (fun k => 2 ^ (k + 1))).sum = 2 ^ (m + 1) - 2 := by
  induction m with
  | zero => simp
  | succ n ih =>
    rw [List.range_succ, List.map_append, List.sum_append, ih]
    have h1 : (2 : Nat) ^ (n + 1 + 1) = 2 * 2 ^ (n + 1) := by ring
    have h2 : 2 ≤ (2 : Nat) ^ (n + 1) := by
      calc 2 = 2 ^ 1 := rfl
      _ ≤ 2 ^ (n + 1) := Nat.pow_le_pow_right (by omega) (by omega)
    simp only [List.map_cons, List.map_nil, List.sum_cons, List.sum_nil]
    omega

/-- C1 (amended): for every upload that succeeds, the destination key appended
to the registry is `{s3Folder}/{subfolderName}/{fileName}` — the local parent
folder component is NOT part of the key (`UploadFileWithRetry` joins only
`S3Folder`, `subfolderName` and `filepath.Base(filePath)`). -/
theorem upload_key_structure (ok : Nat → Bool) (s3f sub : String) (fp : List String)
    (N : Nat) (hsucc : (uploadFileWithRetry ok s3f sub fp N).success = true) :
    (uploadFileWithRetry ok s3f sub fp N).registryDelta
      = [s3f ++ "/" ++ sub ++ "/" ++ filepathBase fp] := by
  match N with
  | 0 => simp [uploadFileWithRetry, retryAux] at hsucc
  | n + 1 =>
    have h := (retryAux_shape ok (s3KeyFor s3f sub fp) (n + 1) (n + 1) 1 (by omega) (by omega)).2
    unfold uploadFileWithRetry at hsucc ⊢
    rw [h, if_pos hsucc]
    rfl

/-- C1 witness: a concrete one-attempt successful upload of local file
`base_files/file_0.txt` into batch `FOLDER_1` with `s3Folder = "s3f"`. -/
theorem upload_key_structure_witness :
    (uploadFileWithRetry (fun _ => true) "s3f" "FOLDER_1" ["base_files", "file_0.txt"] 1).success
        = true ∧
    (uploadFileWithRetry (fun _ => true) "s3f" "FOLDER_1" ["base_files", "file_0.txt"] 1).registryDelta
      = ["s3f" ++ "/" ++ "FOLDER_1" ++ "/" ++ filepathBase ["base_files", "file_0.txt"]] :=
  ⟨rfl, upload_key_structure (fun _ => true) "s3f" "FOLDER_1" ["base_files", "file_0.txt"] 1 rfl⟩

/-- C1 counterexample: for the local file `base_files/file_0.txt` uploaded in
batch `FOLDER_1` with `s3Folder = "s3f"`, the key actually appended to the
registry is `s3f/FOLDER_1/file_0.txt`, which differs from the key the claim
prescribes, `s3f/FOLDER_1/base_files/file_0.txt` (the
`{localParentFolder}` component is absent). -/
theorem upload_key_omits_local_parent_folder :
    (uploadFileWithRetry (fun _ => true) "s3f" "FOLDER_1" ["base_files", "file_0.txt"] 1).registryDelta
      = ["s3f/FOLDER_1/file_0.txt"] ∧
    specDestinationKey "s3f" "FOLDER_1" (localParentOf ["base_files", "file_0.txt"])
        (filepathBase ["base_files", "file_0.txt"]) = "s3f/FOLDER_1/base_files/file_0.txt" ∧
    ("s3f/FOLDER_1/file_0.txt" : String) ≠ "s3f/FOLDER_1/base_files/file_0.txt" := by
  refine ⟨rfl, rfl, ?_⟩
  decide

/-- C2: when every attempt of a file fails and `maxRetries = N ≥ 1`, the
upload performs exactly `N` attempts, sleeps `2^k` seconds exactly after each
failed attempt `k < N` (cumulative `2^1 + … + 2^(N-1) = 2^N - 2` seconds),
returns an error with exactly one permanent failure recorded in the monitor,
and appends nothing to the registry. -/
theorem retry_all_fail_policy (ok : Nat → Bool) (s3f sub : String) (fp : List String)
    (N : Nat) (hfail : ∀ n, ok n = false) (hN : 1 ≤ N) :
    (uploadFileWithRetry ok s3f sub fp N).attempts = N ∧
    (uploadFileWithRetry ok s3f sub fp N).sleeps
      = (List.range (N - 1)).map (fun k => 2 ^ (k + 1)) ∧
    (uploadFileWithRetry ok s3f sub fp N).sleeps.sum = 2 ^ N - 2 ∧
    (uploadFileWithRetry ok s3f sub fp N).success = false ∧
    (uploadFileWithRetry ok s3f sub fp N).statsCalls = [false] ∧
    (uploadFileWithRetry ok s3f sub fp N).registryDelta = [] := by
  have h := retryAux_all_fail ok (s3KeyFor s3f sub fp) N hfail N 1 hN (by omega)
  have hmap : (List.range (N - 1)).map (fun i => 2 ^ (1 + i))
      = (List.range (N - 1)).map (fun k => 2 ^ (k + 1)) := by
    refine List.map_congr_left ?_
    intro i _
    congr 1
    omega
  unfold uploadFileWithRetry
  rw [h]
  refine ⟨rfl, hmap, ?_, rfl, rfl, rfl⟩
  show ((List.range (N - 1)).map (fun i => 2 ^ (1 + i))).sum = 2 ^ N - 2
  rw [hmap, backoff_sum]
  congr 2
  omega

/-- C2 witness: `maxRetries = 3` and a destination failing every attempt:
3 attempts, sleeps of `2` and `4` seconds (total `6 = 2^3 - 2`), one
permanent failure, registry untouched. -/
theorem retry_all_fail_policy_witness :
    (∀ n : Nat, (fun _ : Nat => false) n = false) ∧ 1 ≤ 3 ∧
    ((uploadFileWithRetry (fun _ => false) "s3f" "FOLDER_1" ["base_files", "file_0.txt"] 3).attempts = 3 ∧
     (uploadFileWithRetry (fun _ => false) "s3f" "FOLDER_1" ["base_files", "file_0.txt"] 3).sleeps
       = (List.range (3 - 1)).map (fun k => 2 ^ (k + 1)) ∧
     (uploadFileWithRetry (fun _ => false) "s3f" "FOLDER_1" ["base_files", "file_0.txt"] 3).sleeps.sum
       = 2 ^ 3 - 2 ∧
     (uploadFileWithRetry (fun _ => false) "s3f" "FOLDER_1" ["base_files", "file_0.txt"] 3).success = false ∧
     (uploadFileWithRetry (fun _ => false) "s3f" "FOLDER_1" ["base_files", "file_0.txt"] 3).statsCalls = [false] ∧
     (uploadFileWithRetry (fun _ => false) "s3f" "FOLDER_1" ["base_files", "file_0.txt"] 3).registryDelta = []) :=
  ⟨fun _ => rfl, by omega,
    retry_all_fail_policy (fun _ => false) "s3f" "FOLDER_1" ["base_files", "file_0.txt"] 3
      (fun _ => rfl) (by omega)⟩

/-- C9 (amended): for `maxRetries ≥ 1`, every terminal outcome of
`UploadFileWithRetry` makes exactly one `monitor.UpdateStats` call, with the
success flag matching the outcome; applying it bumps `TotalUploads` by one
and exactly one of `Successes` / `Failures` by one. -/
theorem stats_updated_once_per_outcome (ok : Nat → Bool) (s3f sub : String)
    (fp : List String) (N : Nat) (hN : 1 ≤ N) :
    (uploadFileWithRetry ok s3f sub fp N).statsCalls
      = [(uploadFileWithRetry ok s3f sub fp N).success] ∧
    ∀ s : Stats,
      (applyStatsCalls (uploadFileWithRetry ok s3f sub fp N).statsCalls s).totalUploads
          = s.totalUploads + 1 ∧
      (applyStatsCalls (uploadFileWithRetry ok s3f sub fp N).statsCalls s).successes
          = s.successes + (if (uploadFileWithRetry ok s3f sub fp N).success then 1 else 0) ∧
      (applyStatsCalls (uploadFileWithRetry ok s3f sub fp N).statsCalls s).failures
          = s.failures + (if (uploadFileWithRetry ok s3f sub fp N).success then 0 else 1) := by
  have h := (retryAux_shape ok (s3KeyFor s3f sub fp) N N 1 hN (by omega)).1
  unfold uploadFileWithRetry
  refine ⟨h, fun s => ?_⟩
  rw [h]
  cases (retryAux ok (s3KeyFor s3f sub fp) N 1 N).success <;>
    simp [applyStatsCalls, UpdateStats]

/-- C9 witness: a first-attempt success with `maxRetries = 1`. -/
theorem stats_updated_once_per_outcome_witness :
    (uploadFileWithRetry (fun _ => true) "s3f" "FOLDER_1" ["base_files", "file_0.txt"] 1).statsCalls
      = [(uploadFileWithRetry (fun _ => true) "s3f" "FOLDER_1" ["base_files", "file_0.txt"] 1).success] ∧
    ∀ s : Stats,
      (applyStatsCalls (uploadFileWithRetry (fun _ => true) "s3f" "FOLDER_1" ["base_files", "file_0.txt"] 1).statsCalls s).totalUploads
          = s.totalUploads + 1 ∧
      (applyStatsCalls (uploadFileWithRetry (fun _ => true) "s3f" "FOLDER_1" ["base_files", "file_0.txt"] 1).statsCalls s).successes
          = s.successes + (if (uploadFileWithRetry (fun _ => true) "s3f" "FOLDER_1" ["base_files", "file_0.txt"] 1).success then 1 else 0) ∧
      (applyStatsCalls (uploadFileWithRetry (fun _ => true) "s3f" "FOLDER_1" ["base_files", "file_0.txt"] 1).statsCalls s).failures
          = s.failures + (if (uploadFileWithRetry (fun _ => true) "s3f" "FOLDER_1" ["base_files", "file_0.txt"] 1).success then 0 else 1) :=
  stats_updated_once_per_outcome (fun _ => true) "s3f" "FOLDER_1" ["base_files", "file_0.txt"] 1
    (by omega)

/-- C9 counterexample: with `maxRetries = 0` the retry loop body never runs;
`UploadFileWithRetry` falls through to its trailing error return — a terminal
permanent-failure outcome — yet no `monitor.UpdateStats` call is made, so
`RunStats` is left unchanged. -/
theorem zero_retries_no_stats_update :
    (uploadFileWithRetry (fun _ => true) "s3f" "FOLDER_1" ["base_files", "file_0.txt"] 0).success
        = false ∧
    (uploadFileWithRetry (fun _ => true) "s3f" "FOLDER_1" ["base_files", "file_0.txt"] 0).statsCalls
        = [] ∧
    applyStatsCalls
        (uploadFileWithRetry (fun _ => true) "s3f" "FOLDER_1" ["base_files", "file_0.txt"] 0).statsCalls
        ⟨0, 0, 0⟩ = ⟨0, 0, 0⟩ :=
  ⟨rfl, rfl, rfl⟩

/-- One upload task handed to `UploadFileWithRetry` during the upload phase:
its per-attempt outcome oracle and the arguments of the call. -/
structure UploadJob where
  attemptOk : Nat → Bool
  s3Folder : String
  subfolderName : String
  filePath : List String
  maxRetries : Nat

/-- Shared mutable state of the upload phase: the uploader's
`UploadedS3Files` registry and the monitor's `Stats`. -/
structure UploadPhaseState where
  registry : List String
  stats : Stats

/-- Effect of one completed `UploadFileWithRetry` call on the shared state:
its registry appends (under the uploader mutex) and its `UpdateStats` calls. -/
def runJob (st : UploadPhaseState) (j : UploadJob) : UploadPhaseState :=
  let r := uploadFileWithRetry j.attemptOk j.s3Folder j.subfolderName j.filePath j.maxRetries
  { registry := st.registry ++ r.registryDelta
    stats := applyStatsCalls r.statsCalls st.stats }

/-- The upload phase as the sequence of completed upload calls (batches
flattened in completion order; mutations are serialized by the locks). -/
def runPhase (jobs : List UploadJob) (st : UploadPhaseState) : UploadPhaseState :=
  jobs.foldl runJob st

/-- Whether a job's `UploadFileWithRetry` call eventually succeeds. -/
def jobSucceeds (j : UploadJob) : Bool :=
  (uploadFileWithRetry j.attemptOk j.s3Folder j.subfolderName j.filePath j.maxRetries).success

/-- The state at the start of the upload phase: `NewUploader` makes the
registry `make([]string, 0)` and `InitializeStats` zeroes the counters. -/
def initialPhaseState : UploadPhaseState :=
  { registry := [], stats := ⟨0, 0, 0⟩ }

/-- A successful upload appends exactly one key; a failed one appends none. -/
theorem registryDelta_length (ok : Nat → Bool) (s3f sub : String) (fp : List String)
    (N : Nat) :
    (uploadFileWithRetry ok s3f sub fp N).registryDelta.length
      = (if (uploadFileWithRetry ok s3f sub fp N).success then 1 else 0) := by
  match N with
  | 0 => simp [uploadFileWithRetry, retryAux]
  | n + 1 =>
    have h := (retryAux_shape ok (s3KeyFor s3f sub fp) (n + 1) (n + 1) 1 (by omega) (by omega)).2
    unfold uploadFileWithRetry at h ⊢
    rw [h]
    cases (retryAux ok (s3KeyFor s3f sub fp) (n + 1) 1 (n + 1)).success <;> simp

/-- Registry length grows by exactly the number of successes in a run. -/
theorem runPhase_registry_length (jobs : List UploadJob) :
    ∀ st : UploadPhaseState,
      (runPhase jobs st).registry.length
        = st.registry.length + jobs.countP jobSucceeds := by
  induction jobs with
  | nil => intro st; simp [runPhase]
  | cons j rest ih =>
    intro st
    have hstep : (runJob st j).registry.length
        = st.registry.length + (if jobSucceeds j then 1 else 0) := by
      simp [runJob, jobSucceeds, registryDelta_length]
    rw [runPhase, List.foldl_cons]
    have := ih (runJob st j)
    rw [runPhase] at this
    rw [this, hstep, List.countP_cons]
    by_cases h : jobSucceeds j
    · simp [h]
      omega
    · simp [h]

/-- A run only ever appends to the registry. -/
theorem runPhase_registry_extends (jobs : List UploadJob) :
    ∀ st : UploadPhaseState,
      ∃ added, (runPhase jobs st).registry = st.registry ++ added := by
  induction jobs with
  | nil => intro st; exact ⟨[], by simp [runPhase]⟩
  | cons j rest ih =>
    intro st
    obtain ⟨tail, htail⟩ := ih (runJob st j)
    refine ⟨(uploadFileWithRetry j.attemptOk j.s3Folder j.subfolderName j.filePath
      j.maxRetries).registryDelta ++ tail, ?_⟩
    rw [runPhase, List.foldl_cons]
    rw [runPhase] at htail
    rw [htail]
    simp [runJob]

/-- C3: at every point of the upload phase (after any completed set `pre` of
uploads, with `suf` still to come) the registry length equals exactly the
number of successful uploads so far, and the registry after further uploads
extends the earlier registry (append-only, never removed or replaced). The
jobs are arbitrary, so this covers batches whose file count exceeds the
number of distinct local files (repeated file paths). -/
theorem registry_length_eq_success_count (pre suf : List UploadJob) :
    (runPhase pre initialPhaseState).registry.length = pre.countP jobSucceeds ∧
    ∃ added, (runPhase (pre ++ suf) initialPhaseState).registry
      = (runPhase pre initialPhaseState).registry ++ added := by
  constructor
  · rw [runPhase_registry_length pre initialPhaseState]
    simp [initialPhaseState]
  · have hsplit : runPhase (pre ++ suf) initialPhaseState
        = runPhase suf (runPhase pre initialPhaseState) := by
      simp [runPhase, List.foldl_append]
    rw [hsplit]
    exact runPhase_registry_extends suf (runPhase pre initialPhaseState)

/-- The subfolder-batch loop of `main` (`main.go`): starting from
`totalFilesUploaded = 0`, each iteration takes
`filesToProcess = min(MaxFilesPerFolder, TotalFiles - totalFilesUploaded)`
and launches a batch of that many files, until `TotalFiles` is reached.
`remaining` is `TotalFiles - totalFilesUploaded`.  With
`maxFilesPerFolder = 0` and files remaining, the Go loop never terminates
(batches of 0 files forever); that case is modelled as `[]` and is outside
every claim, which assume a positive cap. -/
def batchSizes (maxFilesPerFolder : Nat) (remaining : Nat) : List Nat :=
  if remaining = 0 ∨ maxFilesPerFolder = 0 then []
  else
    min maxFilesPerFolder remaining ::
      batchSizes maxFilesPerFolder (remaining - min maxFilesPerFolder remaining)
termination_by remaining
decreasing_by
  omega

/-- The batch sizes `main` launches for a configuration. -/
def mainBatchSizes (cfg : Config) : List Nat :=
  batchSizes cfg.maxFilesPerFolder cfg.totalFiles

theorem batchSizes_zero (F : Nat) : batchSizes F 0 = [] := by
  rw [batchSizes]
  simp

theorem batchSizes_pos (F T : Nat) (hF : 1 ≤ F) (hT : 1 ≤ T) :
    batchSizes F T = min F T :: batchSizes F (T - min F T) := by
  rw [batchSizes]
  have h : ¬(T = 0 ∨ F = 0) := by omega
  simp [h]

theorem batchSizes_ne_nil (F T : Nat) (hF : 1 ≤ F) (hT : 1 ≤ T) :
    batchSizes F T ≠ [] := by
  rw [batchSizes_pos F T hF hT]
  simp

/-- Number of batches: `0` for no files, else `⌊(T-1)/F⌋ + 1` (= `⌈T/F⌉`). -/
theorem batchSizes_length (F : Nat) (hF : 1 ≤ F) :
    ∀ T, (batchSizes F T).length = if T = 0 then 0 else (T - 1) / F + 1 := by
  intro T
  induction T using Nat.strong_induction_on with
  | _ T ih =>
    rcases Nat.eq_zero_or_pos T with hT | hT
    · subst hT
      simp [batchSizes_zero]
    · rw [batchSizes_pos F T hF hT]
      rcases le_or_lt T F with hTF | hFT
      · have hmin : min F T = T := by omega
        rw [hmin, Nat.sub_self, batchSizes_zero]
        have hlt : (T - 1) / F = 0 := Nat.div_eq_of_lt (by omega)
        have h0 : ¬(T = 0) := by omega
        simp [hlt, h0]
      · have hmin : min F T = F := by omega
        rw [hmin]
        have hrec := ih (T - F) (by omega)
        rw [List.length_cons, hrec]
        have hTF1 : ¬(T - F = 0) := by omega
        simp only [hTF1, if_false]
        have h1 : ¬(T = 0) := by omega
        simp only [h1, if_false]
        have h2 : T - 1 = (T - F - 1) + F := by omega
        rw [h2, Nat.add_div_right _ (by omega)]

/-- Every batch except possibly the last holds exactly `F` files. -/
theorem batchSizes_dropLast (F : Nat) (hF : 1 ≤ F) :
    ∀ T, ∀ b ∈ (batchSizes F T).dropLast, b = F := by
  intro T
  induction T using Nat.strong_induction_on with
  | _ T ih =>
    rcases Nat.eq_zero_or_pos T with hT | hT
    · subst hT
      simp [batchSizes_zero]
    · rw [batchSizes_pos F T hF hT]
      rcases le_or_lt T F with hTF | hFT
      · have hmin : min F T = T := by omega
        rw [hmin, Nat.sub_self, batchSizes_zero]
        simp
      · have hmin : min F T = F := by omega
        rw [hmin]
        have hne := batchSizes_ne_nil F (T - F) hF (by omega)
        rw [List.dropLast_cons_of_ne_nil hne]
        intro b hb
        rcases List.mem_cons.mp hb with hb | hb
        · exact hb
        · exact ih (T - F) (by omega) b hb

/-- The last batch holds `T mod F` files, or `F` when `F` divides `T`. -/
theorem batchSizes_getLast (F : Nat) (hF : 1 ≤ F) :
    ∀ T, 1 ≤ T →
      (batchSizes F T).getLast? = some (if T % F = 0 then F else T % F) := by
  intro T
  induction T using Nat.strong_induction_on with
  | _ T ih =>
    intro hT
    rw [batchSizes_pos F T hF hT]
    rcases lt_or_le T F with hTF | hFT
    · have hmin : min F T = T := by omega
      rw [hmin, Nat.sub_self, batchSizes_zero]
      have hmod : T % F = T := Nat.mod_eq_of_lt hTF
      rw [hmod]
      have h0 : ¬(T = 0) := by omega
      rw [if_neg h0]
      simp
    · rcases Nat.eq_or_lt_of_le hFT with hEq | hFT'
      · have hmin : min F T = F := by omega
        rw [hmin, ← hEq, Nat.sub_self, batchSizes_zero]
        have hmod : T % F = 0 := by
          rw [← hEq]
          exact Nat.mod_self F
        simp [hmod]
      · have hmin : min F T = F := by omega
        rw [hmin]
        have hrec := ih (T - F) (by omega) (by omega)
        have hne := batchSizes_ne_nil F (T - F) hF (by omega)
        obtain ⟨hd, tl, hcons⟩ := List.exists_cons_of_ne_nil hne
        rw [hcons, List.getLast?_cons_cons, ← hcons, hrec]
        have hmod : (T - F) % F = T % F := by
          have h2 : T - F + F = T := by omega
          rw [← h2, Nat.add_mod_right] at *
          simp
        rw [hmod]

/-- C5 (amended): with `totalFiles = T ≥ 1` and `maxFilesPerFolder = F ≥ 1`,
`main` launches exactly `⌈T / F⌉` subfolder batches; every batch except
possibly the last holds exactly `F` files; the last holds
`T - F * ⌊T / F⌋` files, or `F` when that remainder is `0`.  The batch size
cap is `maxFilesPerFolder`, not `maxLocalFiles` as the claim states. -/
theorem batch_structure (cfg : Config) (hT : 1 ≤ cfg.totalFiles)
    (hF : 1 ≤ cfg.maxFilesPerFolder) :
    (mainBatchSizes cfg).length
        = (cfg.totalFiles + cfg.maxFilesPerFolder - 1) / cfg.maxFilesPerFolder ∧
    (∀ b ∈ (mainBatchSizes cfg).dropLast, b = cfg.maxFilesPerFolder) ∧
    (mainBatchSizes cfg).getLast? =
      some (if cfg.totalFiles % cfg.maxFilesPerFolder = 0 then cfg.maxFilesPerFolder
        else cfg.totalFiles
          - cfg.maxFilesPerFolder * (cfg.totalFiles / cfg.maxFilesPerFolder)) := by
  set T := cfg.totalFiles with hTdef
  set F := cfg.maxFilesPerFolder with hFdef
  refine ⟨?_, batchSizes_dropLast F hF T, ?_⟩
  · rw [mainBatchSizes, ← hTdef, ← hFdef, batchSizes_length F hF T]
    have h1 : ¬(T = 0) := by omega
    simp only [h1, if_false]
    have h2 : T + F - 1 = (T - 1) + F := by omega
    rw [h2, Nat.add_div_right _ (by omega)]
  · rw [mainBatchSizes, ← hTdef, ← hFdef, batchSizes_getLast F hF T hT]
    have hdm := Nat.div_add_mod T F
    have h3 : T % F = T - F * (T / F) := by omega
    rw [h3]

/-- A concrete valid configuration with `totalFiles = 10`,
`maxFilesPerFolder = 4`, used to instantiate theorems with hypotheses. -/
def witnessConfig : Config where
  bucketName := "b"
  s3Folder := "s3f"
  maxFilesPerFolder := 4
  totalFiles := 10
  maxRetries := 3
  endpointURLs := ["http://e1"]
  maxConcurrentReplicas := 1
  maxLocalFiles := 5
  maxConcurrentUploads := 2
  maxConcurrentSubfolders := 1
  pauseDurationSeconds := 0
  maxBenchmarkThreads := 1
  benchmarkDurationSeconds := 1

/-- A concrete configuration with `totalFiles = 4`, `maxFilesPerFolder = 4`
and `maxLocalFiles = 2`, exhibiting that batching follows
`maxFilesPerFolder` and not `maxLocalFiles`. -/
def counterConfig : Config :=
  { witnessConfig with totalFiles := 4, maxLocalFiles := 2 }

/-- C5 witness: `totalFiles = 10`, `maxFilesPerFolder = 4` gives batches
`[4, 4, 2]`: `⌈10/4⌉ = 3` batches, all but the last of size 4, last of size
`10 - 4*⌊10/4⌋ = 2`. -/
theorem batch_structure_witness :
    (1 ≤ witnessConfig.totalFiles ∧ 1 ≤ witnessConfig.maxFilesPerFolder) ∧
    mainBatchSizes witnessConfig = [4, 4, 2] ∧
    (mainBatchSizes witnessConfig).length
      = (witnessConfig.totalFiles + witnessConfig.maxFilesPerFolder - 1)
          / witnessConfig.maxFilesPerFolder := by
  refine ⟨by constructor <;> norm_num [witnessConfig], ?_, ?_⟩
  · simp [mainBatchSizes, witnessConfig, batchSizes]
  · exact (batch_structure witnessConfig (by norm_num [witnessConfig])
      (by norm_num [witnessConfig])).1

/-- C5 counterexample: for `counterConfig` (`totalFiles = 4`,
`maxFilesPerFolder = 4`, `maxLocalFiles = 2`) the upload phase launches the
single batch `[4]`, but the claim (with `L = maxLocalFiles = 2`) predicts
`⌈4/2⌉ = 2` batches of at most 2 files: the batch loop is governed by
`maxFilesPerFolder`, not by `maxLocalFiles`. -/
theorem batch_count_not_governed_by_maxLocalFiles :
    mainBatchSizes counterConfig = [4] ∧
    (counterConfig.totalFiles + counterConfig.maxLocalFiles - 1)
        / counterConfig.maxLocalFiles = 2 ∧
    (mainBatchSizes counterConfig).length ≠ 2 := by
  have h : mainBatchSizes counterConfig = [4] := by
    simp [mainBatchSizes, counterConfig, witnessConfig, batchSizes]
  refine ⟨h, by norm_num [counterConfig, witnessConfig], ?_⟩
  rw [h]
  simp

/-- `filegen.ReplicateFilesWithReflinkInParallel`: per-job errors are sent to
a channel and merely counted and logged; the function ALWAYS returns
`(replicatedFiles, nil)` — every job failing yields a nil error and an empty
slice.  A job result is `some path` on success, `none` on failure. -/
def replicateFilesResult (jobResults : List (Option String)) : Except String (List String) :=
  Except.ok (jobResults.filterMap id)

/-- Go's integer modulo: `a % b` panics with "integer divide by zero" when
`b = 0`.  `none` models the panic. -/
def goMod (a b : Nat) : Option Nat :=
  if b = 0 then none else some (a % b)

/-- The file-path selection loop of `processSubfolder` (`main.go`):
`filePaths[i] = localFiles[i % int64(len(localFiles))]` for
`i = 0 … filesToProcess-1`.  `none` models a panic during the loop. -/
def buildFilePaths (filesToProcess : Nat) (localFiles : List String) :
    Option (List String) :=
  (List.range filesToProcess).mapM
    (fun i => (goMod i localFiles.length).bind (fun j => localFiles.get? j))

/-- A positive batch over an empty local file list panics at its first
iteration: `0 % 0` divides by zero. -/
theorem buildFilePaths_nil (n : Nat) (hn : 0 < n) : buildFilePaths n [] = none := by
  obtain ⟨m, rfl⟩ : ∃ m, n = m + 1 := ⟨n - 1, by omega⟩
  unfold buildFilePaths
  rw [List.range_succ_eq_map, List.mapM_cons]
  simp [goMod]

/-- `mapM` over `Option` succeeds when every element does. -/
theorem option_mapM_isSome {α β : Type} (f : α → Option β) :
    ∀ l : List α, (∀ x ∈ l, (f x).isSome = true) → (l.mapM f).isSome = true := by
  intro l
  induction l with
  | nil => intro _; rfl
  | cons a t ih =>
    intro h
    obtain ⟨b, hb⟩ := Option.isSome_iff_exists.mp (h a (List.mem_cons_self a t))
    obtain ⟨bs, hbs⟩ := Option.isSome_iff_exists.mp
      (ih (fun x hx => h x (List.mem_cons_of_mem a hx)))
    rw [List.mapM_cons, hb, hbs]
    rfl

/-- With at least one local file, every batch's file-path selection completes
without panicking: `i % len` is always a valid index. -/
theorem buildFilePaths_total (b : Nat) (localFiles : List String)
    (h : localFiles ≠ []) : (buildFilePaths b localFiles).isSome = true := by
  have hlen : 0 < localFiles.length := List.length_pos.mpr h
  unfold buildFilePaths
  refine option_mapM_isSome _ _ ?_
  intro i _
  unfold goMod
  rw [if_neg (by omega)]
  show (localFiles.get? (i % localFiles.length)).isSome = true
  cases hg : localFiles.get? (i % localFiles.length) with
  | none =>
    have := List.get?_eq_none.mp hg
    have hmod : i % localFiles.length < localFiles.length := Nat.mod_lt _ hlen
    omega
  | some v => rfl

/-- `s3upload.InitializeS3Clients` (`s3upload/s3_client.go`): one session per
configured endpoint; a failing `session.NewSession` is logged and skipped
(`continue`); the error `"no S3 clients were created..."` is returned exactly
when zero clients were created.  Clients are modelled by the indices of the
endpoints that succeeded (`endpointsOk i = whether endpoint i's session was
created`). -/
def initializeS3Clients (endpointsOk : List Bool) : Except String (List Nat) :=
  let s3Clients := (List.range endpointsOk.length).filter (fun i => endpointsOk.getD i false)
  if s3Clients.length = 0 then
    Except.error "no S3 clients were created. Check endpoints and credentials"
  else
    Except.ok s3Clients

/-- The environment a run of `main` (`main.go`) observes: the outcome of each
fallible external step, in program order. -/
structure MainEnv where
  parsedConfig : Option Config
  fdLimitOk : Bool
  prepareDirOk : Bool
  replicationJobs : List (Option String)
  endpointsOk : List Bool

/-- Exit behavior of `main` (`main.go`): `some code` when the process
terminates with that exit status, `none` when it never exits.
`config.LoadConfig` failure hits `os.Exit(1)`.  The later early failures —
file-descriptor limit, base-directory preparation, S3 client initialization —
execute `fmt.Printf(...); return`, and a plain return from Go's `main`
terminates the process with status 0; `ReplicateFilesWithReflinkInParallel`
always returns a nil error, so its error branch is dead code.  After client
initialization the subfolder batch loop runs: with `maxFilesPerFolder = 0`
and files still to upload it spins forever launching empty batches and never
exits; otherwise each batch runs `processSubfolder`, whose file-path
selection `localFiles[i % int64(len(localFiles))]` panics when the local
file list is empty and the batch is non-empty — an unrecovered panic in a
goroutine crashes the Go process with exit status 2.  When every batch
completes, cleanup, benchmarking and the final report follow, none of which
calls `os.Exit`, and `main` returns: exit status 0. -/
def mainRun (env : MainEnv) : Option Nat :=
  match loadConfig env.parsedConfig with
  | none => some 1
  | some cfg =>
    if !env.fdLimitOk then some 0
    else if !env.prepareDirOk then some 0
    else
      match replicateFilesResult env.replicationJobs with
      | Except.error _ => some 0
      | Except.ok localFiles =>
        match initializeS3Clients env.endpointsOk with
        | Except.error _ => some 0
        | Except.ok _ =>
          if cfg.maxFilesPerFolder = 0 ∧ 0 < cfg.totalFiles then none
          else if (mainBatchSizes cfg).all (fun b => (buildFilePaths b localFiles).isSome)
          then some 0
          else some 2

/-- Once configuration loading has succeeded, the run's outcome is exit 0,
exit 2 (panic) or no exit at all — never exit 1. -/
theorem mainRun_after_config (env : MainEnv) (cfg : Config)
    (hld : loadConfig env.parsedConfig = some cfg) :
    mainRun env = some 0 ∨ mainRun env = some 2 ∨ mainRun env = none := by
  unfold mainRun
  rw [hld]
  cases hfd : env.fdLimitOk
  · simp
  · cases hprep : env.prepareDirOk
    · simp
    · simp only [replicateFilesResult, Bool.not_true, Bool.false_eq_true, if_false]
      rcases hic : initializeS3Clients env.endpointsOk with e | cs
      · simp
      · by_cases hcond : cfg.maxFilesPerFolder = 0 ∧ 0 < cfg.totalFiles
        · simp [hcond]
        · by_cases hall : (mainBatchSizes cfg).all
              (fun b => (buildFilePaths b (env.replicationJobs.filterMap id)).isSome) = true
          · simp [hcond, hall]
          · simp [hcond, hall]

/-- A run whose configuration loaded never exits 1. -/
theorem mainRun_ne_one (env : MainEnv) (cfg : Config)
    (hld : loadConfig env.parsedConfig = some cfg) : mainRun env ≠ some 1 := by
  rcases mainRun_after_config env cfg hld with h | h | h <;> simp [h]

/-- A run that reaches the batch loop with valid batching parameters and at
least one replicated local file completes and exits 0. -/
theorem mainRun_completes (env : MainEnv) (cfg : Config)
    (hld : loadConfig env.parsedConfig = some cfg)
    (hfd : env.fdLimitOk = true) (hprep : env.prepareDirOk = true)
    (hic : ∃ c, initializeS3Clients env.endpointsOk = Except.ok c)
    (hloc : env.replicationJobs.filterMap id ≠ [])
    (hcond : ¬(cfg.maxFilesPerFolder = 0 ∧ 0 < cfg.totalFiles)) :
    mainRun env = some 0 := by
  obtain ⟨c, hc⟩ := hic
  have hall : (mainBatchSizes cfg).all
      (fun b => (buildFilePaths b (env.replicationJobs.filterMap id)).isSome) = true := by
    rw [List.all_eq_true]
    intro b _
    exact buildFilePaths_total b _ hloc
  unfold mainRun
  rw [hld, hfd, hprep]
  simp only [replicateFilesResult, Bool.not_true, Bool.false_eq_true, if_false]
  rw [hc]
  simp [hcond, hall]

/-- A run that reaches the batch loop with files to upload but an empty
local file list panics on the modulo by zero and exits 2. -/
theorem mainRun_panics (env : MainEnv) (cfg : Config)
    (hld : loadConfig env.parsedConfig = some cfg)
    (hfd : env.fdLimitOk = true) (hprep : env.prepareDirOk = true)
    (hic : ∃ c, initializeS3Clients env.endpointsOk = Except.ok c)
    (hloc : env.replicationJobs.filterMap id = [])
    (hF : 1 ≤ cfg.maxFilesPerFolder) (hT : 1 ≤ cfg.totalFiles) :
    mainRun env = some 2 := by
  obtain ⟨c, hc⟩ := hic
  have hcond : ¬(cfg.maxFilesPerFolder = 0 ∧ 0 < cfg.totalFiles) := by omega
  have hhead := batchSizes_pos cfg.maxFilesPerFolder cfg.totalFiles hF hT
  have hfirst : buildFilePaths (min cfg.maxFilesPerFolder cfg.totalFiles) [] = none :=
    buildFilePaths_nil _ (by omega)
  have hall : (mainBatchSizes cfg).all
      (fun b => (buildFilePaths b (env.replicationJobs.filterMap id)).isSome) = false := by
    rw [hloc, mainBatchSizes, hhead, List.all_cons, hfirst]
    rfl
  unfold mainRun
  rw [hld, hfd, hprep]
  simp only [replicateFilesResult, Bool.not_true, Bool.false_eq_true, if_false]
  rw [hc]
  simp [hcond, hall]

/-- Every exit status the program can produce is 0, 1 or 2. -/
theorem mainRun_codes (env : MainEnv) :
    ∀ x, mainRun env = some x → x = 0 ∨ x = 1 ∨ x = 2 := by
  intro x hx
  cases hld : loadConfig env.parsedConfig with
  | none =>
    unfold mainRun at hx
    rw [hld] at hx
    simp only [Option.some.injEq] at hx
    omega
  | some cfg =>
    rcases mainRun_after_config env cfg hld with h | h | h
    · rw [h] at hx
      simp only [Option.some.injEq] at hx
      omega
    · rw [h] at hx
      simp only [Option.some.injEq] at hx
      omega
    · rw [h] at hx
      exact absurd hx (by simp)

/-- C4 (amended): the process exits with status 1 exactly when configuration
loading fails — that is the only non-zero exit apart from a crash.
Client-initialization failure (zero clients created), like the other early
`return`s, exits with status 0, contrary to the claim.  A run past client
initialization exits 0 when at least one local file was replicated (or no
batch runs); when the local file list is empty with files to upload it
panics (modulo by zero) and the process exits 2; with
`maxFilesPerFolder = 0` and files to upload the batch loop never terminates
and the process does not exit.  Every exit status is 0, 1 or 2. -/
theorem exit_code_nonzero_iff_config_failure (env : MainEnv) :
    (mainRun env = some 1 ↔ loadConfig env.parsedConfig = none) ∧
    (∀ cfg e, loadConfig env.parsedConfig = some cfg → env.fdLimitOk = true →
      env.prepareDirOk = true →
      initializeS3Clients env.endpointsOk = Except.error e →
      mainRun env = some 0) ∧
    (∀ x, mainRun env = some x → x = 0 ∨ x = 1 ∨ x = 2) ∧
    (∀ cfg, loadConfig env.parsedConfig = some cfg → env.fdLimitOk = true →
      env.prepareDirOk = true →
      (∃ c, initializeS3Clients env.endpointsOk = Except.ok c) →
      env.replicationJobs.filterMap id ≠ [] →
      ¬(cfg.maxFilesPerFolder = 0 ∧ 0 < cfg.totalFiles) →
      mainRun env = some 0) ∧
    (∀ cfg, loadConfig env.parsedConfig = some cfg → env.fdLimitOk = true →
      env.prepareDirOk = true →
      (∃ c, initializeS3Clients env.endpointsOk = Except.ok c) →
      env.replicationJobs.filterMap id = [] →
      1 ≤ cfg.maxFilesPerFolder → 1 ≤ cfg.totalFiles →
      mainRun env = some 2) := by
  refine ⟨⟨?_, ?_⟩, ?_, mainRun_codes env,
    fun cfg => mainRun_completes env cfg, fun cfg => mainRun_panics env cfg⟩
  · intro h1
    cases hld : loadConfig env.parsedConfig with
    | none => rfl
    | some cfg => exact absurd h1 (mainRun_ne_one env cfg hld)
  · intro hnone
    unfold mainRun
    rw [hnone]
  · intro cfg e hld hfd hprep hic
    unfold mainRun
    rw [hld, hfd, hprep]
    simp only [replicateFilesResult, Bool.not_true, Bool.false_eq_true, if_false]
    rw [hic]

/-- C4 witness: configuration, clients and one replicated file all fine:
the run completes and exits 0 (conjunct four of the theorem, discharged at a
concrete environment). -/
theorem exit_code_nonzero_iff_config_failure_witness :
    mainRun ⟨some witnessConfig, true, true, [some "file_0.txt"], [true]⟩ = some 0 :=
  (exit_code_nonzero_iff_config_failure
      ⟨some witnessConfig, true, true, [some "file_0.txt"], [true]⟩).2.2.2.1
    witnessConfig rfl rfl rfl ⟨[0], rfl⟩ (by decide) (by decide)

/-- C4 counterexample: two concrete runs violating the claim as stated.
First, configuration loads but every endpoint fails client creation:
`InitializeS3Clients` returns its error, yet the process exits 0 where the
claim demands non-zero.  Second, configuration loads and clients initialize,
but every replication job failed while `totalFiles > 0`: the claim's "all
other cases exit zero" is also false — the run panics and exits 2. -/
theorem client_init_failure_exits_zero :
    initializeS3Clients [false]
        = Except.error "no S3 clients were created. Check endpoints and credentials" ∧
    mainRun ⟨some witnessConfig, true, true, [], [false]⟩ = some 0 ∧
    mainRun ⟨some witnessConfig, true, true, [none, none], [true]⟩ = some 2 := by
  refine ⟨rfl, rfl, ?_⟩
  exact mainRun_panics ⟨some witnessConfig, true, true, [none, none], [true]⟩ witnessConfig
    rfl rfl rfl ⟨[0], rfl⟩ (by decide) (by decide) (by decide)

/-- Endpoint selection in `uploadFile` (`s3upload/upload.go`):
`clientIndex := atomic.AddUint64(&u.ClientIndex, 1)` then
`S3Clients[clientIndex % uint64(len(u.S3Clients))]`.  `counterAfterInc` is
the value the atomic add returns.  The counter is `uint64` and starts at 0;
wrapping would need `2^64` attempts, so it is modelled as `Nat`. -/
def selectedClient (counterAfterInc numClients : Nat) : Nat :=
  counterAfterInc % numClients

/-- The clients picked by `attempts` consecutive upload attempts when the
shared counter holds `start` before the first of them: attempt `t`
(0-indexed) gets counter value `start + t + 1`.  The counter advances on
EVERY attempt — `uploadFile` increments it before the PUT, whether the PUT
then succeeds or fails. -/
def clientPicks (start numClients attempts : Nat) : List Nat :=
  (List.range attempts).map (fun t => selectedClient (start + t + 1) numClients)

/-- The clients selected by the SUCCESSFUL attempts among `attempts`
consecutive upload attempts: `okAt c` is whether the PUT of the attempt whose
counter value is `c` returns nil.  Failed attempts still advance the shared
counter, so the successful attempts see a subsequence of the consecutive
counter values, filtered by `okAt`. -/
def successfulPicks (okAt : Nat → Bool) (start numClients attempts : Nat) : List Nat :=
  (((List.range attempts).map (fun t => start + t + 1)).filter okAt).map
    (fun c => selectedClient c numClients)

/-- Any window of `E` consecutive counter values hits each client exactly
once. -/
theorem count_mod_window (E c : Nat) (hc : c < E) :
    ∀ s, ((List.range E).map (fun t => (s + t) % E)).count c = 1 := by
  intro s
  induction s with
  | zero =>
    have hmap : (List.range E).map (fun t => (0 + t) % E) = List.range E := by
      refine List.map_congr_left ?_ |>.trans (List.map_id _)
      intro t ht
      simp only [Nat.zero_add, id]
      exact Nat.mod_eq_of_lt (List.mem_range.mp ht)
    rw [hmap]
    exact List.count_eq_one_of_mem (List.nodup_range E) (List.mem_range.mpr hc)
  | succ s ih =>
    obtain ⟨E', rfl⟩ : ∃ E', E = E' + 1 := ⟨E - 1, by omega⟩
    have hA : (List.range (E' + 1)).map (fun t => (s + t) % (E' + 1))
        = (s % (E' + 1)) ::
          (List.range E').map (fun t => (s + 1 + t) % (E' + 1)) := by
      rw [List.range_succ_eq_map, List.map_cons, List.map_map]
      refine congrArg₂ _ (by simp) (List.map_congr_left ?_)
      intro t _
      simp only [Function.comp]
      congr 1
      omega
    have hB : (List.range (E' + 1)).map (fun t => (s + 1 + t) % (E' + 1))
        = (List.range E').map (fun t => (s + 1 + t) % (E' + 1)) ++ [s % (E' + 1)] := by
      rw [List.range_succ, List.map_append, List.map_singleton]
      have h1 : (s + 1 + E') % (E' + 1) = s % (E' + 1) := by
        have h2 : s + 1 + E' = s + (E' + 1) := by omega
        rw [h2, Nat.add_mod_right]
      rw [h1]
    rw [hB]
    rw [hA] at ih
    rw [List.count_append, List.count_cons] at *
    simp only [List.count_singleton, List.count_nil] at *
    omega

/-- Within fewer than `E` consecutive counter values no client repeats. -/
theorem count_mod_short (E c s m : Nat) (hm : m ≤ E) :
    ((List.range m).map (fun t => (s + t) % E)).count c ≤ 1 := by
  have hnodup : ((List.range m).map (fun t => (s + t) % E)).Nodup := by
    refine List.Nodup.map_on ?_ (List.nodup_range m)
    intro x hx y hy hxy
    have hx' := List.mem_range.mp hx
    have hy' := List.mem_range.mp hy
    have hmodeq : Nat.ModEq E (s + x) (s + y) := hxy
    have hxy2 : Nat.ModEq E x y := Nat.ModEq.add_left_cancel' s hmodeq
    have := hxy2
    unfold Nat.ModEq at this
    rw [Nat.mod_eq_of_lt (by omega), Nat.mod_eq_of_lt (by omega)] at this
    exact this
  exact List.nodup_iff_count_le_one.mp hnodup c

/-- Splitting off one full window of `E` attempts: the residues repeat with
period `E`, so the remaining picks are the same list as picks from the same
start. -/
theorem clientPicks_split (s E m : Nat) :
    clientPicks s E (E + m)
      = (List.range E).map (fun t => (s + 1 + t) % E) ++ clientPicks s E m := by
  unfold clientPicks selectedClient
  rw [List.range_add, List.map_append, List.map_map]
  refine congrArg₂ _ (List.map_congr_left ?_) (List.map_congr_left ?_)
  · intro t _
    congr 1
    omega
  · intro t _
    simp only [Function.comp]
    have h1 : s + (E + t) + 1 = (s + t + 1) + E := by omega
    rw [h1, Nat.add_mod_right]

/-- C6 (amended): endpoint selection is the shared atomically incremented
counter taken modulo the client count, chosen per individual upload attempt;
across any `U` consecutive upload attempts (successful or not — the counter
advances on every attempt) over `E` clients, from any starting counter value
`s`, client `c` is selected `⌊U/E⌋` or `⌈U/E⌉` times.  Restricted to the
successful attempts alone the bound fails; see the counterexample. -/
theorem round_robin_fair (s U E c : Nat) (hE : 0 < E) (hc : c < E) :
    (clientPicks s E U).count c = U / E ∨
    (clientPicks s E U).count c = U / E + 1 := by
  induction U using Nat.strong_induction_on with
  | _ U ih =>
    rcases lt_or_le U E with hU | hU
    · have hshort := count_mod_short E c (s + 1) U (by omega)
      have hdiv : U / E = 0 := Nat.div_eq_of_lt hU
      have hpicks : clientPicks s E U
          = (List.range U).map (fun t => (s + 1 + t) % E) := by
        unfold clientPicks selectedClient
        refine List.map_congr_left ?_
        intro t _
        congr 1
        omega
      rw [hpicks, hdiv]
      omega
    · obtain ⟨m, rfl⟩ : ∃ m, U = E + m := ⟨U - E, by omega⟩
      have hwin := count_mod_window E c hc (s + 1)
      have hrec := ih m (by omega)
      have hdiv : (E + m) / E = m / E + 1 := by
        rw [Nat.add_comm E m, Nat.add_div_right _ hE]
      rw [clientPicks_split, List.count_append, hwin, hdiv]
      omega

/-- C6 witness: counter starting at 0, 5 attempts over 2 clients: picks are
`[1, 0, 1, 0, 1]`; client 1 is selected `3 = ⌈5/2⌉` times. -/
theorem round_robin_fair_witness :
    (clientPicks 0 2 5).count 1 = 5 / 2 ∨ (clientPicks 0 2 5).count 1 = 5 / 2 + 1 :=
  round_robin_fair 0 5 2 1 (by omega) (by omega)

/-- C6 counterexample: 5 consecutive attempts over `E = 2` clients from
counter value 0, the store failing exactly the attempts whose counter value
is even.  Selection happens per attempt, so the failed attempts advance the
counter too: the `U = 3` successful attempts carry counter values 1, 3, 5
and ALL select client 1 — 3 selections, while the claim's fairness bound
over successful attempts allows only `⌊3/2⌋ = 1` or `⌈3/2⌉ = 2`. -/
theorem round_robin_unfair_over_successes :
    successfulPicks (fun c => c % 2 == 1) 0 2 5 = [1, 1, 1] ∧
    (successfulPicks (fun c => c % 2 == 1) 0 2 5).length = 3 ∧
    (successfulPicks (fun c => c % 2 == 1) 0 2 5).count 1 = 3 ∧
    ¬((3 : Nat) = 3 / 2 ∨ (3 : Nat) = 3 / 2 + 1) := by
  decide

/-- Per-operation-kind metrics (`benchmark/benchmark.go`,
`PerformanceMetrics`).  Durations (`time.Duration`, non-negative nanosecond
counts in this program) are modelled as `Nat`. -/
structure PerformanceMetrics where
  totalOperations : Nat
  totalTime : Nat
  minTime : Nat
  maxTime : Nat
  errorCount : Nat
deriving DecidableEq

/-- The zero value `&PerformanceMetrics{}` prepared in
`PerformBenchmarkOperations`. -/
def zeroMetrics : PerformanceMetrics :=
  { totalOperations := 0, totalTime := 0, minTime := 0, maxTime := 0, errorCount := 0 }

/-- The critical section at the end of each benchmark operation
(`performOperation`, `benchmark/benchmark.go`): under the mutex,
`TotalOperations++`, `TotalTime += duration`,
`if MinTime == 0 || duration < MinTime { MinTime = duration }`,
`if duration > MaxTime { MaxTime = duration }`,
`if err != nil { ErrorCount++ }`. -/
def recordOp (m : PerformanceMetrics) (duration : Nat) (isErr : Bool) : PerformanceMetrics :=
  { totalOperations := m.totalOperations + 1
    totalTime := m.totalTime + duration
    minTime := if m.minTime = 0 ∨ duration < m.minTime then duration else m.minTime
    maxTime := if duration > m.maxTime then duration else m.maxTime
    errorCount := if isErr then m.errorCount + 1 else m.errorCount }

/-- Metrics after a sequence of completed operations, each sample being
`(duration, whether the S3 call returned an error)`. -/
def runMetrics (samples : List (Nat × Bool)) : PerformanceMetrics :=
  samples.foldl (fun m p => recordOp m p.1 p.2) zeroMetrics

/-- One benchmark loop (`performOperation`): if the uploaded-files registry
is empty it prints and returns before attempting anything, leaving the
metrics it was handed untouched; otherwise the completed operations mutate
the metrics via `recordOp`. -/
def performOperation (uploadedS3Files : List String) (samples : List (Nat × Bool))
    (m : PerformanceMetrics) : PerformanceMetrics :=
  if uploadedS3Files.length = 0 then m
  else samples.foldl (fun acc p => recordOp acc p.1 p.2) m

/-- Invariant carried by the metrics over a run whose recorded durations are
all positive: `errorCount ≤ totalOperations`, every processed sample lies in
`[minTime, maxTime]`, and `minTime` is positive once a sample exists. -/
theorem recordOp_invariant (processed : List (Nat × Bool)) :
    ∀ (rest : List (Nat × Bool)) (m : PerformanceMetrics),
      (∀ p ∈ rest, 0 < p.1) →
      m.errorCount ≤ m.totalOperations →
      (∀ p ∈ processed, m.minTime ≤ p.1 ∧ p.1 ≤ m.maxTime) →
      (processed ≠ [] → 0 < m.minTime) →
      (rest.foldl (fun acc p => recordOp acc p.1 p.2) m).errorCount
          ≤ (rest.foldl (fun acc p => recordOp acc p.1 p.2) m).totalOperations ∧
      (∀ p ∈ processed ++ rest,
        (rest.foldl (fun acc p => recordOp acc p.1 p.2) m).minTime ≤ p.1 ∧
        p.1 ≤ (rest.foldl (fun acc p => recordOp acc p.1 p.2) m).maxTime) := by
  intro rest
  induction rest generalizing processed with
  | nil =>
    intro m _ herr hbound _
    simp only [List.foldl_nil, List.append_nil]
    exact ⟨herr, hbound⟩
  | cons q qs ih =>
    intro m hpos herr hbound hne
    have hq : 0 < q.1 := hpos q (List.mem_cons_self q qs)
    have hstep_err : (recordOp m q.1 q.2).errorCount ≤ (recordOp m q.1 q.2).totalOperations := by
      unfold recordOp
      cases q.2 <;> simp <;> omega
    have hstep_bound : ∀ p ∈ processed ++ [q],
        (recordOp m q.1 q.2).minTime ≤ p.1 ∧ p.1 ≤ (recordOp m q.1 q.2).maxTime := by
      intro p hp
      rcases List.mem_append.mp hp with hp | hp
      · have hold := hbound p hp
        have hne' : processed ≠ [] := by
          intro hcontra
          rw [hcontra] at hp
          exact List.not_mem_nil p hp
        have hminpos := hne hne'
        unfold recordOp
        constructor
        · by_cases h1 : m.minTime = 0 ∨ q.1 < m.minTime
          · simp only [h1, if_true]
            omega
          · simp only [h1, if_false]
            omega
        · by_cases h2 : q.1 > m.maxTime
          · simp only [h2, if_true]
            omega
          · simp only [h2, if_false]
            omega
      · have hpq : p = q := List.mem_singleton.mp hp
        rw [hpq]
        unfold recordOp
        constructor
        · by_cases h1 : m.minTime = 0 ∨ q.1 < m.minTime
          · simp [h1]
          · simp only [h1, if_false]
            omega
        · by_cases h2 : q.1 > m.maxTime
          · simp [h2]
          · simp only [h2, if_false]
            omega
    have hstep_min : processed ++ [q] ≠ [] → 0 < (recordOp m q.1 q.2).minTime := by
      intro _
      unfold recordOp
      by_cases h1 : m.minTime = 0 ∨ q.1 < m.minTime
      · simp only [h1, if_true]
        exact hq
      · simp only [h1, if_false]
        omega
    have hpos' : ∀ p ∈ qs, 0 < p.1 := fun p hp => hpos p (List.mem_cons_of_mem q hp)
    have hres := ih (processed ++ [q]) (recordOp m q.1 q.2) hpos' hstep_err hstep_bound hstep_min
    rw [List.foldl_cons]
    refine ⟨hres.1, ?_⟩
    intro p hp
    refine hres.2 p ?_
    rcases List.mem_append.mp hp with hp | hp
    · exact List.mem_append.mpr (Or.inl (List.mem_append.mpr (Or.inl hp)))
    · rcases List.mem_cons.mp hp with rfl | hp
      · exact List.mem_append.mpr (Or.inl (List.mem_append.mpr (Or.inr (List.mem_singleton.mpr rfl))))
      · exact List.mem_append.mpr (Or.inr hp)

/-- C7 (amended): for every operation kind and every sequence of completed
operations whose recorded durations are positive (as `time.Since` samples of
real S3 calls are), `errorCount ≤ totalOperations` and every recorded sample
`d` satisfies `minTime ≤ d ≤ maxTime`; `minTime` is lazily initialized on the
first sample (`recordOp` of `zeroMetrics` sets it to that sample).  The
positivity proviso is forced: the `MinTime == 0` sentinel makes a
zero-duration sample indistinguishable from "uninitialized". -/
theorem metrics_invariants (samples : List (Nat × Bool))
    (hpos : ∀ p ∈ samples, 0 < p.1) :
    (runMetrics samples).errorCount ≤ (runMetrics samples).totalOperations ∧
    (∀ p ∈ samples, (runMetrics samples).minTime ≤ p.1 ∧
      p.1 ≤ (runMetrics samples).maxTime) ∧
    (∀ d e, (recordOp zeroMetrics d e).minTime = d) := by
  have h := recordOp_invariant [] samples zeroMetrics hpos (by simp [zeroMetrics])
    (by simp) (by simp)
  refine ⟨h.1, ?_, ?_⟩
  · intro p hp
    exact h.2 p (by simpa using hp)
  · intro d e
    simp [recordOp, zeroMetrics]

/-- C7 witness: samples of durations 2 and 7 (one error): errorCount 1 ≤ 2
operations, both samples within `[minTime, maxTime] = [2, 7]`. -/
theorem metrics_invariants_witness :
    (∀ p ∈ [((2 : Nat), true), (7, false)], 0 < p.1) ∧
    ((runMetrics [(2, true), (7, false)]).errorCount
        ≤ (runMetrics [(2, true), (7, false)]).totalOperations ∧
      (∀ p ∈ [((2 : Nat), true), (7, false)],
        (runMetrics [(2, true), (7, false)]).minTime ≤ p.1 ∧
        p.1 ≤ (runMetrics [(2, true), (7, false)]).maxTime) ∧
      (∀ d e, (recordOp zeroMetrics d e).minTime = d)) :=
  ⟨by decide, metrics_invariants [(2, true), (7, false)] (by decide)⟩

/-- C7 counterexample: a zero-duration sample followed by a 5-duration one.
The second update sees `MinTime == 0` and overwrites it with 5, so the
recorded sample `d = 0` violates `minTime ≤ d`: the invariant as claimed
does not hold for every sequence of completed operations. -/
theorem min_time_forgets_zero_sample :
    ((0 : Nat), false) ∈ [((0 : Nat), false), (5, false)] ∧
    (runMetrics [(0, false), (5, false)]).minTime = 5 ∧
    ¬ ((runMetrics [(0, false), (5, false)]).minTime ≤ 0) := by
  decide

/-- C8: a benchmark loop whose registry is empty at start returns before
attempting any operation: whatever operations the environment would have
produced, the metrics stay the zero value (`totalOperations = 0`,
`errorCount = 0`). -/
theorem empty_registry_no_ops (samples : List (Nat × Bool)) :
    performOperation [] samples zeroMetrics = zeroMetrics ∧
    (performOperation [] samples zeroMetrics).totalOperations = 0 ∧
    (performOperation [] samples zeroMetrics).errorCount = 0 := by
  refine ⟨?_, ?_, ?_⟩ <;> simp [performOperation, zeroMetrics]

/-- C10: when every replication job fails, the replication step reports a
non-error with an empty file list, and any subfolder batch with a positive
file count then evaluates `i % len(localFiles)` with `len = 0`: an integer
modulo by zero, i.e. a panic rather than an error return. -/
theorem empty_local_files_mod_zero_panic (jobResults : List (Option String)) (n : Nat)
    (hall : ∀ r ∈ jobResults, r = none) (hn : 0 < n) :
    replicateFilesResult jobResults = Except.ok [] ∧
    buildFilePaths n (jobResults.filterMap id) = none := by
  have hempty : jobResults.filterMap id = [] := by
    rw [List.filterMap_eq_nil_iff]
    intro a ha
    rw [hall a ha]
    rfl
  constructor
  · rw [replicateFilesResult, hempty]
  · rw [hempty]
    exact buildFilePaths_nil n hn

/-- C10 witness: two failed replication jobs and a batch of 3 files. -/
theorem empty_local_files_mod_zero_panic_witness :
    (∀ r ∈ [(none : Option String), none], r = none) ∧ 0 < 3 ∧
    (replicateFilesResult [none, none] = Except.ok [] ∧
      buildFilePaths 3 (([(none : Option String), none]).filterMap id) = none) :=
  ⟨by decide, by decide,
    empty_local_files_mod_zero_panic [none, none] 3 (by decide) (by decide)⟩

end ScaleS3
